import Mathlib

/-!
Verification of the attempt-lifecycle and asynchronous-delivery core of the
recruitment backend (Rust).  The definitions below are a shallow embedding of
the relevant source functions:

  * src/services/grading_service.rs   (GradingService::grade_mcq_only)
  * src/services/attempt_service.rs   (create_invite, start_attempt_by_token,
                                       save_answer_by_token, submit_attempt_by_token,
                                       submit_presentation_by_token, heartbeat,
                                       report_violation)
  * src/routes/public.rs              (start_test, save_answer, submit_test,
                                       submit_presentation, heartbeat handlers)
  * src/services/notification_service.rs (enqueue_webhook, deliver_once, run_once)

Modelling conventions, chosen once and used throughout:
  * JSON values (serde_json::Value) are the inductive `Json` below; numbers are
    integers (no claim here exercises float JSON numbers).
  * Timestamps (chrono DateTime<Utc>) are integers counting seconds; an RFC3339
    rendering of a timestamp is abstracted to the instant itself.
  * rust_decimal::Decimal and f64 score arithmetic are modelled exactly over ℚ.
  * Machine-integer casts that the source performs explicitly are modelled
    explicitly: `as i32` is `wrap32`, `as usize` is `castUsize`.
  * Database rows are Lean structures; one SQL statement is one atomic state
    transition.  Token lookup (`WHERE access_token = $1`) is abstracted: each
    operation acts on the attempt row the token resolves to.
-/

namespace HRBackend

/-- serde_json::Value restricted to integer numbers. -/
inductive Json where
  | null : Json
  | bool (b : Bool) : Json
  | num (n : Int) : Json
  | str (s : String) : Json
  | arr (xs : List Json) : Json
  | obj (fields : List (String × Json)) : Json

/-- serde_json::Value::get on an object (None on any other shape). -/
def Json.get? : Json → String → Option Json
  | .obj fs, k => fs.lookup k
  | _, _ => none

/-- serde_json::Value::as_i64: an integer number in i64 range. -/
def Json.asI64 : Json → Option Int
  | .num n => if -(2 ^ 63) ≤ n ∧ n < 2 ^ 63 then some n else none
  | _ => none

/-- serde_json::Value::is_object. -/
def Json.isObj : Json → Bool
  | .obj _ => true
  | _ => false

/-- Deserializing a JSON value as Vec<serde_json::Value> with a default:
`serde_json::from_value(v).unwrap_or_default()`. -/
def Json.toArr : Json → List Json
  | .arr xs => xs
  | _ => []

/-- Rust `as i32` on an i64 value: two's-complement truncation to 32 bits. -/
def wrap32 (n : Int) : Int := (n + 2 ^ 31) % 2 ^ 32 - 2 ^ 31

/-- Rust `as usize` on a signed value (64-bit platform): wrap into [0, 2^64). -/
def castUsize (n : Int) : Nat := (n % 2 ^ 64).toNat

/-! ## Question model (src/models/question.rs) -/

/-- models/question.rs QuestionType. -/
inductive QuestionType where
  | multipleChoice
  | code
  | shortAnswer
deriving DecidableEq

/-- models/question.rs MultipleChoiceDetails; correct_answer is an i32. -/
structure MultipleChoiceDetails where
  options : List String
  correct_answer : Int
  explanation : Option String
deriving DecidableEq

/-- models/question.rs TestCase. -/
structure TestCase where
  input : String
  expected : String
deriving DecidableEq

/-- models/question.rs CodeDetails. -/
structure CodeDetails where
  language : String
  starter_code : Option String
  test_cases : List TestCase
deriving DecidableEq

/-- models/question.rs ShortAnswerDetails. -/
structure ShortAnswerDetails where
  expected_keywords : Option (List String)
  min_words : Option Int
  ai_grading : Bool
deriving DecidableEq

/-- models/question.rs QuestionDetails (untagged union). -/
inductive QuestionDetails where
  | mc (d : MultipleChoiceDetails)
  | code (d : CodeDetails)
  | shortAns (d : ShortAnswerDetails)
deriving DecidableEq

/-- models/question.rs Question; id and points are i32. -/
structure Question where
  id : Int
  question_type : QuestionType
  question : String
  points : Int
  details : QuestionDetails
deriving DecidableEq

/-! ## Grading engine (src/services/grading_service.rs, grade_mcq_only) -/

/-- `let question_id = q.id.max((idx as i32) + 1)` for the question at 0-based
position idx. -/
def questionIdOf (idx : Nat) (q : Question) : Int := max q.id ((idx : Int) + 1)

/-- `answers.iter().find(|a| a.get("question_id").and_then(as_i64) == Some(qid))`. -/
def findAnswer (answers : List Json) (qid : Int) : Option Json :=
  answers.find? (fun a => (a.get? "question_id").bind Json.asI64 == some qid)

/-- `ans.and_then(|a| a.get("answer").cloned()).unwrap_or(json!(null))`. -/
def candidateAnswerOf (answers : List Json) (qid : Int) : Json :=
  ((findAnswer answers qid).bind (fun a => a.get? "answer")).getD Json.null

/-- `candidate_answer.as_i64().or_else(|| if is_object then
get("selected").and_then(as_i64) else None)`. -/
def givenIndex (candidate_answer : Json) : Option Int :=
  match candidate_answer.asI64 with
  | some n => some n
  | none =>
      if candidate_answer.isObj then (candidate_answer.get? "selected").bind Json.asI64
      else none

/-- Loop body of grade_mcq_only for the question at 0-based position idx:
returns (points_earned, graded entry, needs_review contribution).  In the
source, is_correct demands `given_idx as i32 == mc.correct_answer`. -/
def gradeOne (answers : List Json) (idx : Nat) (q : Question) : Int × Json × Bool :=
  let qid := questionIdOf idx q
  let candidate_answer := candidateAnswerOf answers qid
  match q.question_type with
  | .multipleChoice =>
      match q.details with
      | .mc mc =>
          let correct_val : Json :=
            match mc.options.get? (castUsize mc.correct_answer) with
            | some o => .str o
            | none => .null
          let given := givenIndex candidate_answer
          let candidate_val : Json :=
            match given with
            | some gi =>
                match mc.options.get? (castUsize gi) with
                | some o => .str o
                | none => candidate_answer
            | none => candidate_answer
          let is_correct : Bool :=
            match given with
            | some gi => wrap32 gi == mc.correct_answer
            | none => false
          let pe : Int := if is_correct then q.points else 0
          (pe, .obj [("question_id", .num qid), ("question_text", .str q.question),
                     ("type", .str "multiple_choice"),
                     ("candidate_answer", candidate_val), ("correct_answer", correct_val),
                     ("points_earned", .num pe), ("max_points", .num q.points),
                     ("is_correct", .bool is_correct)], false)
      | _ =>
          (0, .obj [("question_id", .num qid), ("question_text", .str q.question),
                    ("type", .str "multiple_choice"),
                    ("candidate_answer", candidate_answer), ("correct_answer", .null),
                    ("points_earned", .num 0), ("max_points", .num q.points),
                    ("is_correct", .bool false)], false)
  | .shortAnswer =>
      (0, .obj [("question_id", .num qid), ("question_text", .str q.question),
                ("type", .str "short_answer"),
                ("candidate_answer", candidate_answer),
                ("correct_answer", .str "Manual review required"),
                ("points_earned", .num 0), ("max_points", .num q.points),
                ("is_correct", .bool false), ("needs_review", .bool true)], true)
  | .code =>
      (0, .obj [("question_id", .num qid), ("question_text", .str q.question),
                ("type", .str "code"),
                ("candidate_answer", candidate_answer),
                ("correct_answer", .str "Auto-grading not supported for this type"),
                ("points_earned", .num 0), ("max_points", .num q.points),
                ("is_correct", .bool false)], false)

/-- Return value of grade_mcq_only:
(earned_points, total_max_points, graded, needs_review). -/
structure GradeResult where
  earned : Int
  maxPossible : Int
  graded : List Json
  needsReview : Bool

/-- The for-loop of grade_mcq_only, with idx the position of the first
remaining question.  The source accumulates earned_points and
total_max_points in i32 variables (grading_service.rs lines 11-12), so each
addition wraps to 32 bits (release-mode semantics; a debug build would panic
on overflow — either way the exact integer sum is not what the program
computes once a total leaves i32 range). -/
def gradeLoop (answers : List Json) : Nat → List Question → GradeResult
  | _, [] => ⟨0, 0, [], false⟩
  | idx, q :: rest =>
      let r := gradeLoop answers (idx + 1) rest
      let one := gradeOne answers idx q
      ⟨wrap32 (one.1 + r.earned), wrap32 (q.points + r.maxPossible),
       one.2.1 :: r.graded, one.2.2 || r.needsReview⟩

/-- GradingService::grade_mcq_only.  Earned and maximum points are the i32
accumulators of the source, so they carry the 32-bit wrapping of
gradeLoop. -/
def grade_mcq_only (questions : List Question) (answers : List Json) : GradeResult :=
  gradeLoop answers 0 questions

/-! ## Attempt and Test rows -/

/-- The question-set snapshot stored on an attempt (attempt_service.rs
create_invite, lines 63-70): the test's questions, or a themes object for a
presentation-type test. -/
inductive Snapshot where
  | questions (qs : List Question)
  | presentation (themes : Json) (extra_info : Option String)

/-- models/test.rs Test, restricted to the fields the verified operations
read.  questions is kept in parsed form (the source parses the stored
questions JSON with serde before grading); passing_score (Decimal) is ℚ. -/
structure Test where
  questions : List Question
  duration_minutes : Int
  passing_score : Rat
  test_type : String
  presentation_themes : Json
  presentation_extra_info : Option String

/-- models/test_attempt.rs TestAttempt, restricted to the fields the verified
operations read or write.  Decimal columns are ℚ, timestamps are integer
seconds.  Token lookup is abstracted: each operation acts on the row the
access token resolves to. -/
structure Attempt where
  status : String
  expires_at : Int
  started_at : Option Int
  completed_at : Option Int
  time_spent_seconds : Option Int
  questions_snapshot : Snapshot
  answers : Option Json
  score : Option Rat
  max_score : Option Rat
  percentage : Option Rat
  passed : Option Bool
  graded_answers : Option Json
  tab_switches : Option Int
  suspicious_activity : Option Json
  presentation_submission_link : Option String
  presentation_submission_file_path : Option String
  last_heartbeat_at : Option Int

/-! ## Attempt operations (src/services/attempt_service.rs, src/routes/public.rs) -/

/-- AttemptService::create_invite, its row-construction core: the snapshot
choice of lines 63-70 and the INSERT of lines 72-97.  The one-pending-invite
guard and the random token are outside the row and omitted. -/
def create_invite (test : Test) (now : Int) (expires_in_hours : Int) : Attempt :=
  { status := "pending"
    expires_at := now + expires_in_hours * 3600
    started_at := none
    completed_at := none
    time_spent_seconds := none
    questions_snapshot :=
      if test.test_type == "presentation" then
        .presentation test.presentation_themes test.presentation_extra_info
      else .questions test.questions
    answers := none
    score := none
    max_score := none
    percentage := none
    passed := none
    graded_answers := none
    tab_switches := some 0
    suspicious_activity := none
    presentation_submission_link := none
    presentation_submission_file_path := none
    last_heartbeat_at := none }

/-- AttemptService::start_attempt_by_token (lines 136-158): one UPDATE setting
status 'in_progress', started_at = COALESCE(started_at, now) and
expires_at = min(now + duration, expires_at). -/
def start_attempt_by_token (attempt : Attempt) (test : Test) (now : Int) : Attempt :=
  let expires_candidate := now + test.duration_minutes * 60
  let new_expires :=
    if expires_candidate < attempt.expires_at then expires_candidate else attempt.expires_at
  { attempt with
      status := "in_progress"
      started_at := some (attempt.started_at.getD now)
      expires_at := new_expires }

/-- Outcome of a public route handler: a 4xx rejection carrying the HTTP
status and machine-readable error code (the attempt row untouched), or
success carrying the handler's result. -/
inductive RouteOutcome (α : Type) where
  | rejected (http : Nat) (code : String)
  | ok (a : α)

/-- routes/public.rs start_test (lines 64-102): the expiry re-check, then the
service call. -/
def start_test (attempt : Attempt) (test : Test) (now : Int) : RouteOutcome Attempt :=
  if attempt.expires_at ≤ now then .rejected 403 "test_expired"
  else .ok (start_attempt_by_token attempt test now)

/-- dto/public_dto.rs SaveAnswerRequest. -/
structure SaveAnswerRequest where
  question_id : Int
  answer : Json
  time_spent_seconds : Int
  marked_for_review : Option Bool

/-- The JSON item save_answer_by_token upserts into the answers column
(attempt_service.rs lines 179-185); answered_at abstracts the timestamp. -/
def answerItem (req : SaveAnswerRequest) (now : Int) : Json :=
  .obj [("question_id", .num req.question_id), ("answer", req.answer),
        ("time_spent", .num req.time_spent_seconds),
        ("marked_for_review", .bool (req.marked_for_review.getD false)),
        ("answered_at", .num now)]

/-- One answer_logs row (models/answer_log.rs), as inserted by
save_answer_by_token. -/
structure AnswerLog where
  question_id : Int
  answer_value : Json
  time_spent_seconds : Int

/-- AttemptService::save_answer_by_token (lines 160-203): inserts an
answer_logs row and upserts into the mutable answers list keyed by
question_id (replace in place, else append). -/
def save_answer_by_token (attempt : Attempt) (req : SaveAnswerRequest) (now : Int) :
    Attempt × AnswerLog :=
  let answers := (attempt.answers.map Json.toArr).getD []
  let item := answerItem req now
  let answers' :=
    match answers.findIdx? (fun a => (a.get? "question_id").bind Json.asI64 == some req.question_id) with
    | some pos => answers.set pos item
    | none => answers ++ [item]
  ({ attempt with answers := some (.arr answers') },
   ⟨req.question_id, req.answer, req.time_spent_seconds⟩)

/-- routes/public.rs save_answer (lines 105-131): expiry re-check, then the
service call. -/
def save_answer (attempt : Attempt) (req : SaveAnswerRequest) (now : Int) :
    RouteOutcome (Attempt × AnswerLog) :=
  if attempt.expires_at ≤ now then .rejected 403 "test_expired"
  else .ok (save_answer_by_token attempt req now)

/-- dto/public_dto.rs SubmitTestRequest. -/
structure SubmitTestRequest where
  answers : List SaveAnswerRequest
  status : Option String

/-- serde serialization of one element of req.answers as stored into the
answers column by submit (dto/public_dto.rs field order). -/
def SaveAnswerRequest.toJson (r : SaveAnswerRequest) : Json :=
  .obj [("question_id", .num r.question_id), ("answer", r.answer),
        ("time_spent_seconds", .num r.time_spent_seconds),
        ("marked_for_review",
          match r.marked_for_review with
          | some b => .bool b
          | none => .null)]

/-- Return value of submit_attempt_by_token:
(updated row, score, max_score, percentage, passed). -/
structure SubmitOutcome where
  attempt : Attempt
  score : Rat
  max_score : Rat
  percentage : Rat
  passed : Bool

/-- AttemptService::submit_attempt_by_token (lines 205-262).  Note: grading
reads test.questions — the live tests row fetched by token at submit time —
not the attempt's questions_snapshot.  f64/Decimal arithmetic is exact ℚ. -/
def submit_attempt_by_token (attempt : Attempt) (test : Test) (req : SubmitTestRequest)
    (now : Int) : SubmitOutcome :=
  let status := req.status.getD "completed"
  let answersJson : List Json := req.answers.map SaveAnswerRequest.toJson
  let a1 := { attempt with answers := some (.arr answersJson) }
  let r := grade_mcq_only test.questions answersJson
  let final_status := if r.needsReview && status == "completed" then "needs_review" else status
  let score : Rat := r.earned
  let max_score : Rat := r.maxPossible
  let percentage : Rat := if max_score > 0 then score / max_score * 100 else 0
  let passed : Bool := decide (percentage ≥ test.passing_score)
  { attempt :=
      { a1 with
          status := final_status
          completed_at := some now
          time_spent_seconds := a1.started_at.map (fun s => now - s)
          score := some score
          max_score := some max_score
          percentage := some percentage
          passed := some passed
          graded_answers := some (.arr r.graded) }
    score := score
    max_score := max_score
    percentage := percentage
    passed := passed }

/-- routes/public.rs submit_test (lines 259-293): expiry re-check,
already-completed check, then the service call. -/
def submit_test (attempt : Attempt) (test : Test) (req : SubmitTestRequest) (now : Int) :
    RouteOutcome SubmitOutcome :=
  if attempt.expires_at ≤ now then .rejected 403 "test_expired"
  else if attempt.status == "completed" then .rejected 409 "already_completed"
  else .ok (submit_attempt_by_token attempt test req now)

/-- AttemptService::submit_presentation_by_token (lines 264-294). -/
def submit_presentation_by_token (attempt : Attempt) (link file_path : Option String)
    (now : Int) : Attempt :=
  { attempt with
      status := "needs_review"
      completed_at := some now
      time_spent_seconds := attempt.started_at.map (fun s => now - s)
      presentation_submission_link := link
      presentation_submission_file_path := file_path }

/-- routes/public.rs submit_presentation (lines 134-256): its only guards are
already-completed and empty submission — this path has no expiry check.
Per-field validation (URL scheme, file extension) rejects before any mutation
and is abstracted: link and file_path are the validated values. -/
def submit_presentation (attempt : Attempt) (link file_path : Option String) (now : Int) :
    RouteOutcome Attempt :=
  if attempt.status == "completed" then .rejected 409 "already_completed"
  else if link.isNone && file_path.isNone then .rejected 400 "empty_submission"
  else .ok (submit_presentation_by_token attempt link file_path now)

/-- AttemptService::heartbeat (lines 471-482): one unconditional UPDATE of
last_heartbeat_at; the route handler (routes/public.rs lines 390-398) adds no
check of its own. -/
def heartbeat (attempt : Attempt) (now : Int) : Attempt :=
  { attempt with last_heartbeat_at := some now }

/-- The suspicious_activity entry report_violation appends (lines 582-586);
the RFC3339 timestamp string is abstracted to the instant. -/
def violationEntry (violation_type : String) (new_count : Int) (now : Int) : Json :=
  .obj [("type", .str violation_type), ("tab_switches", .num new_count),
        ("timestamp", .num now)]

/-- Return value of report_violation: (current_tab_switches, terminated),
with the resulting attempt row. -/
structure ViolationOutcome where
  attempt : Attempt
  tab_switches : Int
  terminated : Bool

/-- AttemptService::report_violation (lines 564-650), MAX_VIOLATIONS = 2:
no-op unless in_progress; otherwise increments the counter, appends the
activity entry, and on reaching the threshold auto-fails the attempt. -/
def report_violation (attempt : Attempt) (violation_type : String) (now : Int) :
    ViolationOutcome :=
  if attempt.status ≠ "in_progress" then
    ⟨attempt, attempt.tab_switches.getD 0, attempt.status == "escaped"⟩
  else
    let new_count := attempt.tab_switches.getD 0 + 1
    let activity :=
      ((attempt.suspicious_activity.map Json.toArr).getD []) ++
        [violationEntry violation_type new_count now]
    let terminated : Bool := decide (new_count ≥ 2)
    if terminated then
      ⟨{ attempt with
           tab_switches := some new_count
           suspicious_activity := some (.arr activity)
           status := "escaped"
           completed_at := some now
           score := some 0
           max_score := some (attempt.max_score.getD 0)
           percentage := some 0
           passed := some false }, new_count, true⟩
    else
      ⟨{ attempt with
           tab_switches := some new_count
           suspicious_activity := some (.arr activity) }, new_count, false⟩

/-! ## Notification outbox (src/services/notification_service.rs)

Every sqlx call in the service runs directly on the connection pool, i.e. in
autocommit mode: each SQL statement is one atomic transition, and no lock or
transaction spans two statements. -/

/-- models/webhook_log.rs WebhookLog, the fields the worker reads or writes.
attempts, max_attempts, next_retry_at and status are nullable; enqueue sets
only status, the worker coalesces attempts to 0 and max_attempts to 3. -/
structure WebhookLog where
  id : Nat
  event_type : String
  payload : Json
  http_status : Option Int
  response_body : Option String
  attempts : Option Int
  max_attempts : Option Int
  next_retry_at : Option Int
  status : Option String

/-- NotificationService::enqueue_webhook (lines 24-46):
INSERT ... status = 'pending'. -/
def enqueue_webhook (id : Nat) (event_type : String) (payload : Json) : WebhookLog :=
  { id := id, event_type := event_type, payload := payload
    http_status := none, response_body := none, attempts := none
    max_attempts := none, next_retry_at := none, status := some "pending" }

/-- Result of the outbound HTTP POST performed by deliver_once. -/
inductive HttpResult where
  | resp (status : Int) (body : String)
  | transportErr (message : String)

/-- The UPDATE deliver_once applies to the row after the HTTP call
(lines 65-87): 2xx records success, anything else records failed; either way
attempts = COALESCE(attempts, 0) + 1. -/
def deliver_update (log : WebhookLog) (res : HttpResult) : WebhookLog :=
  match res with
  | .resp s b =>
      { log with
          http_status := some s
          response_body := some b
          status := some (if 200 ≤ s ∧ s ≤ 299 then "success" else "failed")
          attempts := some (log.attempts.getD 0 + 1) }
  | .transportErr m =>
      { log with
          response_body := some m
          status := some "failed"
          attempts := some (log.attempts.getD 0 + 1) }

/-- The claim query of run_once (lines 92-100): the first row in created_at
order with status 'pending' whose next_retry_at is null or due.  The queue
list is kept in created_at order.  The statement's FOR UPDATE SKIP LOCKED
lock ends with the statement (autocommit); the row is not modified and no
status value marks it claimed. -/
def claimQuery (q : List WebhookLog) (now : Int) : Option WebhookLog :=
  q.find? (fun l =>
    l.status == some "pending" &&
      (l.next_retry_at.isNone || decide (l.next_retry_at.getD 0 ≤ now)))

/-- UPDATE ... WHERE id = $1, applied to the queue table. -/
def updateRow (q : List WebhookLog) (id : Nat) (f : WebhookLog → WebhookLog) :
    List WebhookLog :=
  q.map (fun l => if l.id == id then f l else l)

/-- The retry backoff of run_once (lines 116-125):
LEAST(3600, 30 * 2^GREATEST(0, attempts - 1)) seconds. -/
def backoff (attempts : Int) : Int := min 3600 (30 * 2 ^ (max 0 (attempts - 1)).toNat)

/-- NotificationService::run_once executed with no interleaving: claim query,
delivery with outcome res, then the retry-scheduling UPDATE when the row is
failed with attempts < max_attempts.  Returns the new queue and whether a row
was processed. -/
def notif_run_once (q : List WebhookLog) (now : Int) (res : HttpResult) :
    List WebhookLog × Bool :=
  match claimQuery q now with
  | none => (q, false)
  | some l =>
      let q1 := updateRow q l.id (fun x => deliver_update x res)
      let l1 := deliver_update l res
      let q2 :=
        if l1.status == some "failed" && decide (l1.attempts.getD 0 < l1.max_attempts.getD 3) then
          updateRow q1 l.id
            (fun x => { x with next_retry_at := some (now + backoff (l1.attempts.getD 0)) })
        else q1
      (q2, true)

/-- State of the outbox under concurrent workers: the queue table plus the
log of outbound HTTP POSTs actually performed, one (worker, webhook id) pair
per call. -/
structure OutboxState where
  queue : List WebhookLog
  deliveries : List (Nat × Nat)

/-- One worker running the claim query of run_once: a read-only statement.
In autocommit mode the FOR UPDATE lock dies with the statement and nothing
marks the row, so the state is unchanged and only an id is returned. -/
def selectStep (s : OutboxState) (now : Int) : Option Nat :=
  (claimQuery s.queue now).map (fun l => l.id)

/-- One worker running deliver_once on id: the HTTP POST side effect is
recorded in deliveries and the result UPDATE is applied to the queue. -/
def deliverStep (s : OutboxState) (worker : Nat) (id : Nat) (res : HttpResult) :
    OutboxState :=
  { queue := updateRow s.queue id (fun x => deliver_update x res)
    deliveries := s.deliveries ++ [(worker, id)] }

/-- Number of outbound HTTP deliveries performed for the given webhook id. -/
def deliveriesFor (s : OutboxState) (id : Nat) : Nat :=
  (s.deliveries.filter (fun d => d.2 == id)).length

/-! ## AI job queue (src/services/queue_service.rs)

For contrast with the outbox, the AI worker's claim (run_once lines 67-78) is
a single atomic statement: UPDATE ai_jobs SET status = 'running' WHERE id =
(SELECT id FROM ai_jobs WHERE status = 'pending' ORDER BY created_at ASC FOR
UPDATE SKIP LOCKED LIMIT 1) RETURNING id. -/

/-- An ai_jobs row, restricted to the fields the claim statement touches. -/
structure AiJob where
  id : Nat
  status : String

/-- The atomic claim statement of AiQueueService::run_once: selects the first
pending job and marks it running in the same statement. -/
def ai_claim (jobs : List AiJob) : Option Nat × List AiJob :=
  match jobs.find? (fun j => j.status == "pending") with
  | none => (none, jobs)
  | some j =>
      (some j.id,
       jobs.map (fun x => if x.id == j.id then { x with status := "running" } else x))

/-! ## Concrete fixtures used by the theorems -/

/-- A two-option multiple-choice payload with canonical correct index 0. -/
def mcQMC : MultipleChoiceDetails :=
  { options := ["4", "5"], correct_answer := 0, explanation := none }

/-- A 1-point multiple-choice question. -/
def qMC : Question :=
  { id := 1, question_type := .multipleChoice, question := "2+2?", points := 1
    details := .mc mcQMC }

/-- A 3-point short-answer (subjective) question. -/
def qSA : Question :=
  { id := 2, question_type := .shortAnswer, question := "Explain.", points := 3
    details := .shortAns { expected_keywords := none, min_words := none, ai_grading := false } }

/-- A question-based test: one MCQ, 10 minutes, passing score 50. -/
def testMC : Test :=
  { questions := [qMC], duration_minutes := 10, passing_score := 50
    test_type := "question_based", presentation_themes := .null
    presentation_extra_info := none }

/-- The attempt row created by inviting a candidate to testMC at time 0 with a
24-hour expiry. -/
def attemptInvited : Attempt := create_invite testMC 0 24

/-- testMC after an edit that moves the canonical correct option from index 0
to index 1. -/
def testEdited : Test :=
  { testMC with questions := [{ qMC with details := .mc { mcQMC with correct_answer := 1 } }] }

/-- A submission answering question 1 with option index 0 (correct under the
invite-time questions, wrong under the edited ones). -/
def reqMC : SubmitTestRequest := ⟨[⟨1, .num 0, 5, none⟩], none⟩

/-- An attempt auto-failed by the anti-cheat threshold (status escaped,
counter 2), one hour before its expiry. -/
def attemptEscaped : Attempt :=
  { create_invite testMC 0 1 with status := "escaped", tab_switches := some 2 }

/-- An in-progress attempt whose expiry (3600) has passed. -/
def attemptExpired : Attempt :=
  { create_invite testMC 0 1 with status := "in_progress", started_at := some 0 }

/-- The single enqueued outbox row the C1 trace delivers twice. -/
def wlogA : WebhookLog := enqueue_webhook 1 "test_completed" (.obj [])

/-- Outbox state: one pending row, no deliveries performed yet. -/
def outbox0 : OutboxState := ⟨[wlogA], []⟩

/-- An enqueued outbox row whose first delivery will fail. -/
def wlogB : WebhookLog := enqueue_webhook 7 "deadline_warning" .null

/-- wlogB after one failed delivery (HTTP 500) at time 0: failed, attempts 1,
retry scheduled for time 30. -/
def wlogBFailed : WebhookLog :=
  { id := 7, event_type := "deadline_warning", payload := .null
    http_status := some 500, response_body := some "err", attempts := some 1
    max_attempts := none, next_retry_at := some 30, status := some "failed" }

/-! ## Claim theorems -/

/-- C1.  The claim demands that claiming is exclusive for every queue: the
claim operation atomically marks the item running and hides it from
concurrent claimers, so one pending item is delivered exactly once.  The
notification outbox violates this: its claim query runs in autocommit mode
(the FOR UPDATE SKIP LOCKED lock dies with the statement) and updates
nothing, so after worker A's claim query the row is still status pending and
a second worker's claim query — legal at any point before A's result UPDATE —
returns the same id; both then perform the HTTP POST.  The trace below
performs two deliveries of the single enqueued event. -/
theorem outbox_claim_not_exclusive :
    claimQuery outbox0.queue 5 = some wlogA ∧
    wlogA.status = some "pending" ∧
    selectStep outbox0 5 = some 1 ∧
    deliveriesFor
      (deliverStep (deliverStep outbox0 0 1 (.resp 200 "ok")) 1 1 (.resp 200 "ok")) 1 = 2 :=
  ⟨rfl, rfl, rfl, rfl⟩

/-- The AI job queue, in contrast, claims with a single atomic UPDATE: once a
job is marked running a second claim finds nothing. -/
theorem ai_claim_atomic :
    ai_claim [⟨1, "pending"⟩] = (some 1, [⟨1, "running"⟩]) ∧
    ai_claim [⟨1, "running"⟩] = (none, [⟨1, "running"⟩]) :=
  ⟨rfl, rfl⟩

/-- C2.  The claim says timeout and escaped are terminal for every operation.
But start_test checks only expiry, and start_attempt_by_token sets status
'in_progress' unconditionally: an escaped (anti-cheat auto-failed) attempt
whose expiry has not passed is revived to in_progress by calling start
again. -/
theorem terminal_escaped_restartable :
    attemptEscaped.status = "escaped" ∧
    (10 : Int) < attemptEscaped.expires_at ∧
    start_test attemptEscaped testMC 10 =
      .ok (start_attempt_by_token attemptEscaped testMC 10) ∧
    (start_attempt_by_token attemptEscaped testMC 10).status = "in_progress" :=
  ⟨rfl, by decide, rfl, rfl⟩

/-- C3.  The snapshot is frozen at invite time and no operation rewrites it —
but submit grades against the live test row, not the snapshot: after the
test's correct option moves from index 0 to 1, the same submission (answer 0)
scores 1 against the snapshot questions and 0 through submit. -/
theorem snapshot_not_used_for_grading :
    attemptInvited.questions_snapshot = .questions [qMC] ∧
    (submit_attempt_by_token attemptInvited testEdited reqMC 100).attempt.questions_snapshot =
      .questions [qMC] ∧
    (grade_mcq_only [qMC] (reqMC.answers.map SaveAnswerRequest.toJson)).earned = 1 ∧
    (submit_attempt_by_token attemptInvited testEdited reqMC 100).score = 0 ∧
    (grade_mcq_only testEdited.questions (reqMC.answers.map SaveAnswerRequest.toJson)).earned = 0 :=
  ⟨rfl, rfl, rfl, rfl, rfl⟩

/-- C4.  A failed delivery increments attempts and schedules
next_retry_at = now + min(3600, 30·2^(attempts-1)) as claimed — but the item
is left with status 'failed', and the claim query selects only status
'pending': even long after the scheduled retry time the worker finds nothing,
so the item is never retried and is permanently failed after one attempt. -/
theorem failed_webhook_never_retried :
    notif_run_once [wlogB] 0 (.resp 500 "err") = ([wlogBFailed], true) ∧
    wlogBFailed.attempts = some 1 ∧
    wlogBFailed.next_retry_at = some 30 ∧
    claimQuery [wlogBFailed] 1000 = none ∧
    notif_run_once [wlogBFailed] 1000 (.resp 200 "ok") = ([wlogBFailed], false) :=
  ⟨rfl, rfl, rfl, rfl, rfl⟩

/-- C5.  Start is idempotent: on a fresh, unexpired attempt, two start calls
(at t1 ≤ t2, each before the then-current expiry) both yield started_at = t1,
and the second call leaves expires_at exactly where the first put it, which
is at most min(original expiry, t1 + test duration). -/
theorem start_idempotent (a : Attempt) (t : Test) (t1 t2 : Int)
    (h0 : a.started_at = none) (h1 : t1 < a.expires_at) (h12 : t1 ≤ t2)
    (h2 : t2 < (start_attempt_by_token a t t1).expires_at) :
    start_test a t t1 = .ok (start_attempt_by_token a t t1) ∧
    start_test (start_attempt_by_token a t t1) t t2 =
      .ok (start_attempt_by_token (start_attempt_by_token a t t1) t t2) ∧
    (start_attempt_by_token a t t1).started_at = some t1 ∧
    (start_attempt_by_token (start_attempt_by_token a t t1) t t2).started_at = some t1 ∧
    (start_attempt_by_token (start_attempt_by_token a t t1) t t2).expires_at =
      (start_attempt_by_token a t t1).expires_at ∧
    (start_attempt_by_token a t t1).expires_at ≤ a.expires_at ∧
    (start_attempt_by_token a t t1).expires_at ≤ t1 + t.duration_minutes * 60 := by
  have hexp : ∀ (b : Attempt) (s : Int), (start_attempt_by_token b t s).expires_at =
      min (s + t.duration_minutes * 60) b.expires_at := by
    intro b s
    simp only [start_attempt_by_token]
    split_ifs with h <;> omega
  have hs1 : (start_attempt_by_token a t t1).started_at = some t1 := by
    simp [start_attempt_by_token, h0]
  have hb1 : (start_attempt_by_token a t t1).expires_at ≤ t1 + t.duration_minutes * 60 := by
    rw [hexp]; exact min_le_left _ _
  refine ⟨?_, ?_, hs1, ?_, ?_, ?_, hb1⟩
  · simp only [start_test]
    rw [if_neg (not_le.mpr h1)]
  · simp only [start_test]
    rw [if_neg (not_le.mpr h2)]
  · simp [start_attempt_by_token, h0]
  · rw [hexp (start_attempt_by_token a t t1) t2]
    exact min_eq_right (le_trans hb1 (by omega))
  · rw [hexp]; exact min_le_right _ _

/-- Witness for start_idempotent at the fixture invite, t1 = 0, t2 = 5. -/
theorem start_idempotent_witness :
    (start_attempt_by_token (start_attempt_by_token attemptInvited testMC 0) testMC 5).started_at =
      some 0 ∧
    (start_attempt_by_token (start_attempt_by_token attemptInvited testMC 0) testMC 5).expires_at =
      (start_attempt_by_token attemptInvited testMC 0).expires_at :=
  ⟨(start_idempotent attemptInvited testMC 0 5 rfl (by decide) (by decide) (by decide)).2.2.2.1,
   (start_idempotent attemptInvited testMC 0 5 rfl (by decide) (by decide) (by decide)).2.2.2.2.1⟩

/-- C9 counterexample.  The claim says every token-scoped mutation path —
including heartbeat and submit-presentation — rejects with an expired-test
outcome and mutates nothing once expires_at ≤ now.  On an expired in-progress
attempt, heartbeat still records last_heartbeat_at, and submit_presentation
still transitions the row to needs_review. -/
theorem expiry_not_rechecked_counterexample :
    attemptExpired.expires_at ≤ 4000 ∧
    attemptExpired.last_heartbeat_at = none ∧
    heartbeat attemptExpired 4000 = { attemptExpired with last_heartbeat_at := some 4000 } ∧
    submit_presentation attemptExpired (some "https://example.com/deck") none 4000 =
      .ok (submit_presentation_by_token attemptExpired (some "https://example.com/deck") none 4000) ∧
    (submit_presentation_by_token attemptExpired (some "https://example.com/deck") none 4000).status =
      "needs_review" :=
  ⟨by decide, rfl, rfl, rfl, rfl⟩

/-- C9 amended.  Exactly the start, save-answer and submit paths re-check
expiry and reject with test_expired leaving the row untouched; heartbeat
performs no check and updates last_heartbeat_at even when expired, and
submit_presentation is refused only when already completed. -/
theorem expiry_checks_amended (a : Attempt) (t : Test) (req : SubmitTestRequest)
    (r : SaveAnswerRequest) (link file : Option String) (now : Int)
    (hexp : a.expires_at ≤ now) :
    start_test a t now = .rejected 403 "test_expired" ∧
    save_answer a r now = .rejected 403 "test_expired" ∧
    submit_test a t req now = .rejected 403 "test_expired" ∧
    heartbeat a now = { a with last_heartbeat_at := some now } ∧
    (a.status ≠ "completed" → link.isSome = true →
      submit_presentation a link file now =
        .ok (submit_presentation_by_token a link file now)) := by
  refine ⟨?_, ?_, ?_, rfl, ?_⟩
  · simp [start_test, hexp]
  · simp [save_answer, hexp]
  · simp [submit_test, hexp]
  · intro hst hl
    have hn : link.isNone = false := by
      cases link
      · simp at hl
      · rfl
    simp [submit_presentation, hst, hn]

/-- Witness for expiry_checks_amended at the expired fixture attempt. -/
theorem expiry_checks_amended_witness :
    start_test attemptExpired testMC 4000 = .rejected 403 "test_expired" ∧
    submit_presentation attemptExpired (some "https://a.example") none 4000 =
      .ok (submit_presentation_by_token attemptExpired (some "https://a.example") none 4000) :=
  ⟨(expiry_checks_amended attemptExpired testMC ⟨[], none⟩ ⟨1, .null, 0, none⟩
      (some "https://a.example") none 4000 (by decide)).1,
   (expiry_checks_amended attemptExpired testMC ⟨[], none⟩ ⟨1, .null, 0, none⟩
      (some "https://a.example") none 4000 (by decide)).2.2.2.2 (by decide) rfl⟩

/-- C10.  The status submit persists is the client-supplied optional status
(defaulting to completed); the only adjustment replaces completed by
needs_review when grading flags review; any other string is stored
verbatim. -/
theorem submit_status_verbatim (a : Attempt) (t : Test) (answers : List SaveAnswerRequest)
    (now : Int) :
    ((submit_attempt_by_token a t ⟨answers, none⟩ now).attempt.status =
      if (grade_mcq_only t.questions (answers.map SaveAnswerRequest.toJson)).needsReview
      then "needs_review" else "completed") ∧
    ((submit_attempt_by_token a t ⟨answers, some "completed"⟩ now).attempt.status =
      if (grade_mcq_only t.questions (answers.map SaveAnswerRequest.toJson)).needsReview
      then "needs_review" else "completed") ∧
    ∀ s, s ≠ "completed" →
      (submit_attempt_by_token a t ⟨answers, some s⟩ now).attempt.status = s := by
  refine ⟨?_, ?_, ?_⟩
  · simp [submit_attempt_by_token]
  · simp [submit_attempt_by_token]
  · intro s hs
    simp [submit_attempt_by_token, beq_eq_false_iff_ne.mpr hs]

/-- Witness for submit_status_verbatim: a client-supplied custom status is
stored verbatim. -/
theorem submit_status_verbatim_witness :
    (submit_attempt_by_token attemptInvited testMC ⟨[], some "custom_check"⟩ 100).attempt.status =
      "custom_check" :=
  (submit_status_verbatim attemptInvited testMC [] 100).2.2 "custom_check" (by decide)

/-- The points_earned number recorded in a graded entry. -/
def entryPoints (g : Json) : Int :=
  match g.get? "points_earned" with
  | some (.num n) => n
  | _ => 0

/-- Section 4.3 reference property of one graded entry, with the
multiple-choice clause amended to what the code does: the submitted 64-bit
index is compared after truncation to i32 (wrap32), as `given_idx as i32`
does. -/
def gradedEntrySpec (ans : List Json) (idx : Nat) (q : Question) (g : Json) : Prop :=
  match q.question_type with
  | .multipleChoice =>
      match q.details with
      | .mc mc =>
          g.get? "needs_review" = none ∧
          entryPoints g =
            (match givenIndex (candidateAnswerOf ans (questionIdOf idx q)) with
             | some gi => if wrap32 gi = mc.correct_answer then q.points else 0
             | none => 0) ∧
          (g.get? "is_correct" = some (.bool true) ↔
            ∃ gi, givenIndex (candidateAnswerOf ans (questionIdOf idx q)) = some gi ∧
              wrap32 gi = mc.correct_answer) ∧
          (∀ o, mc.options.get? (castUsize mc.correct_answer) = some o →
            g.get? "correct_answer" = some (.str o)) ∧
          (∀ gi o, givenIndex (candidateAnswerOf ans (questionIdOf idx q)) = some gi →
            mc.options.get? (castUsize gi) = some o →
            g.get? "candidate_answer" = some (.str o))
      | _ => entryPoints g = 0 ∧ g.get? "needs_review" = none
  | .shortAnswer => entryPoints g = 0 ∧ g.get? "needs_review" = some (.bool true)
  | .code => entryPoints g = 0 ∧ g.get? "needs_review" = none

/-- Wrapped addition absorbs an already-wrapped summand: truncation respects
congruence mod 2^32. -/
lemma wrap32_add_wrap32 (a b : Int) : wrap32 (a + wrap32 b) = wrap32 (a + b) := by
  unfold wrap32
  omega

/-- Truncation is the identity on values already in i32 range. -/
lemma wrap32_eq_self (n : Int) (h1 : -(2 ^ 31) ≤ n) (h2 : n < 2 ^ 31) : wrap32 n = n := by
  unfold wrap32
  omega

/-- The needs_review contribution of one question is exactly its being a
short-answer question. -/
lemma gradeOne_review (ans : List Json) (idx : Nat) (q : Question) :
    (gradeOne ans idx q).2.2 = (q.question_type == QuestionType.shortAnswer) := by
  rcases hq : q.question_type with _ | _ | _ <;>
    rcases hd : q.details with _ | _ | _ <;> simp [gradeOne, hq, hd]

/-- The per-question earned points equal the points_earned field of the
graded entry. -/
lemma gradeOne_points_eq (ans : List Json) (idx : Nat) (q : Question) :
    entryPoints (gradeOne ans idx q).2.1 = (gradeOne ans idx q).1 := by
  rcases hq : q.question_type with _ | _ | _ <;>
    rcases hd : q.details with _ | _ | _ <;>
      simp [gradeOne, entryPoints, Json.get?, List.lookup, hq, hd]

/-- Per question the earned points are 0 or the full point value. -/
lemma gradeOne_points_or (ans : List Json) (idx : Nat) (q : Question) :
    (gradeOne ans idx q).1 = 0 ∨ (gradeOne ans idx q).1 = q.points := by
  rcases hq : q.question_type with _ | _ | _ <;>
    rcases hd : q.details with d | d | d <;> simp only [gradeOne, hq, hd]
  all_goals try first
    | exact Or.inl rfl
    | exact Or.inl trivial
  rcases hg : givenIndex (candidateAnswerOf ans (questionIdOf idx q)) with _ | gi
  · simp [hg]
  · by_cases hc : wrap32 gi = d.correct_answer
    · right
      simp [hg, hc]
    · left
      simp [hg, hc]

/-- The graded entry produced by the loop body satisfies the (amended)
per-entry reference property. -/
lemma gradeOne_entrySpec (ans : List Json) (idx : Nat) (q : Question) :
    gradedEntrySpec ans idx q (gradeOne ans idx q).2.1 := by
  rcases hq : q.question_type with _ | _ | _ <;>
    rcases hd : q.details with d | d | d <;>
      simp only [gradedEntrySpec, gradeOne, hq, hd] <;>
        try exact ⟨rfl, rfl⟩
  refine ⟨rfl, ?_, ?_, ?_, ?_⟩
  · rcases hg : givenIndex (candidateAnswerOf ans (questionIdOf idx q)) with _ | gi <;>
      simp [entryPoints, Json.get?, List.lookup, hg, beq_iff_eq]
  · rcases hg : givenIndex (candidateAnswerOf ans (questionIdOf idx q)) with _ | gi <;>
      simp [Json.get?, List.lookup, hg, beq_iff_eq]
  · intro o ho
    rw [List.get?_eq_getElem?] at ho
    simp [Json.get?, List.lookup, ho]
  · intro gi o hg ho
    rw [List.get?_eq_getElem?] at ho
    simp [Json.get?, List.lookup, hg, ho]

/-- Structural description of the whole grading loop, relative to the first
remaining index: the i32 accumulators hold the 32-bit truncation of the plain
sums. -/
lemma gradeLoop_spec (ans : List Json) (qs : List Question) (idx : Nat) :
    (gradeLoop ans idx qs).maxPossible = wrap32 ((qs.map Question.points).sum) ∧
    (gradeLoop ans idx qs).graded.length = qs.length ∧
    ((gradeLoop ans idx qs).needsReview = true ↔
      ∃ q ∈ qs, q.question_type = QuestionType.shortAnswer) ∧
    (gradeLoop ans idx qs).earned =
      wrap32 (((gradeLoop ans idx qs).graded.map entryPoints).sum) ∧
    ∀ i (h1 : i < qs.length) (h2 : i < (gradeLoop ans idx qs).graded.length),
      gradedEntrySpec ans (idx + i) (qs.get ⟨i, h1⟩)
        ((gradeLoop ans idx qs).graded.get ⟨i, h2⟩) := by
  induction qs generalizing idx with
  | nil =>
      refine ⟨by simp [gradeLoop, wrap32], rfl, by simp [gradeLoop],
        by simp [gradeLoop, wrap32], ?_⟩
      intro i h1 h2
      exact absurd h1 (Nat.not_lt_zero i)
  | cons q rest ih =>
      obtain ⟨ih1, ih2, ih3, ih4, ih5⟩ := ih (idx + 1)
      refine ⟨?_, ?_, ?_, ?_, ?_⟩
      · simp only [gradeLoop, List.map_cons, List.sum_cons]
        rw [ih1, wrap32_add_wrap32]
      · simp [gradeLoop, ih2]
      · simp only [gradeLoop, Bool.or_eq_true, gradeOne_review, ih3, beq_iff_eq]
        constructor
        · rintro (hq | ⟨p, hp, hps⟩)
          · exact ⟨q, List.mem_cons_self q rest, hq⟩
          · exact ⟨p, List.mem_cons_of_mem q hp, hps⟩
        · rintro ⟨p, hp, hps⟩
          rcases List.mem_cons.mp hp with h | h
          · exact Or.inl (h ▸ hps)
          · exact Or.inr ⟨p, h, hps⟩
      · simp only [gradeLoop, List.map_cons, List.sum_cons, gradeOne_points_eq]
        rw [ih4, wrap32_add_wrap32]
      · intro i h1 h2
        cases i with
        | zero => simpa using gradeOne_entrySpec ans idx q
        | succ j =>
            have hj1 : j < rest.length := by simpa using h1
            have hj2 : j < (gradeLoop ans (idx + 1) rest).graded.length := by
              rw [ih2]; exact hj1
            have h := ih5 j hj1 hj2
            have harith : idx + 1 + j = idx + (j + 1) := by omega
            rw [harith] at h
            simpa [gradeLoop] using h

/-- An in-progress attempt one violation short of the threshold. -/
def attemptProg : Attempt :=
  { create_invite testMC 0 1 with
      status := "in_progress", started_at := some 0, tab_switches := some 1 }

/-- C6.  Anti-cheat reporting: on an in_progress attempt each call increments
the tab-switch counter by exactly 1 and appends the timestamped activity
entry; the call that brings the counter to the threshold 2 escapes the
attempt with score 0, percentage 0, passed false, completed_at now; on any
attempt not in_progress (including already escaped) the call mutates nothing
and returns the current counter together with whether the attempt is
escaped. -/
theorem report_violation_spec (a : Attempt) (vt : String) (now : Int) :
    (a.status = "in_progress" →
      (report_violation a vt now).tab_switches = a.tab_switches.getD 0 + 1 ∧
      (report_violation a vt now).attempt.tab_switches = some (a.tab_switches.getD 0 + 1) ∧
      (report_violation a vt now).attempt.suspicious_activity =
        some (.arr (((a.suspicious_activity.map Json.toArr).getD []) ++
          [violationEntry vt (a.tab_switches.getD 0 + 1) now])) ∧
      (a.tab_switches.getD 0 + 1 = 2 →
        (report_violation a vt now).attempt.status = "escaped" ∧
        (report_violation a vt now).attempt.score = some 0 ∧
        (report_violation a vt now).attempt.percentage = some 0 ∧
        (report_violation a vt now).attempt.passed = some false ∧
        (report_violation a vt now).attempt.completed_at = some now ∧
        (report_violation a vt now).terminated = true)) ∧
    (a.status ≠ "in_progress" →
      (report_violation a vt now).attempt = a ∧
      (report_violation a vt now).tab_switches = a.tab_switches.getD 0 ∧
      (report_violation a vt now).terminated = (a.status == "escaped")) := by
  by_cases h : a.status = "in_progress"
  · refine ⟨fun _ => ?_, fun hne => absurd h hne⟩
    by_cases h2 : a.tab_switches.getD 0 + 1 ≥ 2
    · refine ⟨?_, ?_, ?_, fun _ => ?_⟩ <;> simp [report_violation, h, h2]
    · refine ⟨?_, ?_, ?_, fun h3 => absurd (by omega : a.tab_switches.getD 0 + 1 ≥ 2) h2⟩ <;>
        simp [report_violation, h, h2]
  · refine ⟨fun hin => absurd hin h, fun _ => ?_⟩
    refine ⟨?_, ?_, ?_⟩ <;> simp [report_violation, h]

/-- A submission whose answer value is the 64-bit integer 2^32: after the
source's `as i32` truncation it collides with option index 0. -/
def ansBig : List Json := [.obj [("question_id", .num 1), ("answer", .num 4294967296)]]

/-- C7 counterexample.  The claim's iff — full points exactly when the
submitted option index equals the canonical correct index — fails: with
canonical index 0, the submitted index 2^32 (≠ 0) still earns full points,
because the code compares `given_idx as i32` and 2^32 truncates to 0. -/
theorem mcq_truncation_counterexample :
    (grade_mcq_only [qMC] ansBig).earned = 1 ∧
    qMC.points = 1 ∧
    givenIndex (candidateAnswerOf ansBig (questionIdOf 0 qMC)) = some 4294967296 ∧
    mcQMC.correct_answer = 0 ∧
    (4294967296 : Int) ≠ 0 :=
  ⟨rfl, rfl, rfl, rfl, by decide⟩

/-- C7 amended.  grade_mcq_only matches the section 4.3 reference definition
with two amendments forced by the code: (1) a multiple-choice question earns
its points iff the submitted index, truncated to a 32-bit two's-complement
value, equals the canonical correct index; (2) max_possible and earned are
accumulated in the source's i32 variables, so they are the 32-bit truncation
of the plain sums — equal to the plain sums whenever those fit in i32.  One
graded entry is recorded per question; a short-answer question earns zero and
is flagged needs_review; a code (other-type) question earns zero and is not
flagged; the aggregate flag is set iff some question is short-answer. -/
theorem grade_matches_spec_truncated (qs : List Question) (ans : List Json) :
    (grade_mcq_only qs ans).maxPossible = wrap32 ((qs.map Question.points).sum) ∧
    (-(2 ^ 31) ≤ (qs.map Question.points).sum → (qs.map Question.points).sum < 2 ^ 31 →
      (grade_mcq_only qs ans).maxPossible = (qs.map Question.points).sum) ∧
    (grade_mcq_only qs ans).graded.length = qs.length ∧
    ((grade_mcq_only qs ans).needsReview = true ↔
      ∃ q ∈ qs, q.question_type = QuestionType.shortAnswer) ∧
    (grade_mcq_only qs ans).earned =
      wrap32 (((grade_mcq_only qs ans).graded.map entryPoints).sum) ∧
    (-(2 ^ 31) ≤ ((grade_mcq_only qs ans).graded.map entryPoints).sum →
      ((grade_mcq_only qs ans).graded.map entryPoints).sum < 2 ^ 31 →
      (grade_mcq_only qs ans).earned =
        ((grade_mcq_only qs ans).graded.map entryPoints).sum) ∧
    ∀ i (h1 : i < qs.length) (h2 : i < (grade_mcq_only qs ans).graded.length),
      gradedEntrySpec ans i (qs.get ⟨i, h1⟩) ((grade_mcq_only qs ans).graded.get ⟨i, h2⟩) := by
  obtain ⟨h1, h2, h3, h4, h5⟩ := gradeLoop_spec ans qs 0
  refine ⟨h1, ?_, h2, h3, h4, ?_, ?_⟩
  · intro hlo hhi
    exact h1.trans (wrap32_eq_self _ hlo hhi)
  · intro hlo hhi
    exact h4.trans (wrap32_eq_self _ hlo hhi)
  · intro i hi1 hi2
    simpa using h5 i hi1 hi2

/-- Witness for grade_matches_spec_truncated on a one-question short-answer
test with no answers. -/
theorem grade_matches_spec_truncated_witness :
    (grade_mcq_only [qSA] []).needsReview = true ∧
    (grade_mcq_only [qSA] []).maxPossible = 3 ∧
    entryPoints ((grade_mcq_only [qSA] []).graded.get ⟨0, by decide⟩) = 0 := by
  have h := grade_matches_spec_truncated [qSA] []
  refine ⟨h.2.2.2.1.mpr ⟨qSA, by simp, rfl⟩, ?_, ?_⟩
  · exact (h.2.1 (by decide) (by decide)).trans (by decide)
  · exact (h.2.2.2.2.2.2 0 (by decide) (by decide)).1

/-- The exact (unwrapped) per-entry earned sum stays within [0, plain max
sum] once every question's point value is nonnegative. -/
lemma gradeLoop_bounds (ans : List Json) (qs : List Question) :
    ∀ idx : Nat, (∀ q ∈ qs, 0 ≤ q.points) →
      0 ≤ ((gradeLoop ans idx qs).graded.map entryPoints).sum ∧
      ((gradeLoop ans idx qs).graded.map entryPoints).sum ≤ (qs.map Question.points).sum := by
  induction qs with
  | nil => exact fun idx _ => ⟨le_refl 0, le_refl 0⟩
  | cons q rest ih =>
      intro idx h
      have hq : 0 ≤ q.points := h q (List.mem_cons_self q rest)
      obtain ⟨ih0, ihle⟩ := ih (idx + 1) (fun p hp => h p (List.mem_cons_of_mem q hp))
      have hone := gradeOne_points_or ans idx q
      have hpe := gradeOne_points_eq ans idx q
      simp only [gradeLoop, List.map_cons, List.sum_cons]
      rw [hpe]
      constructor
      · rcases hone with hp | hp <;> rw [hp] <;> omega
      · rcases hone with hp | hp <;> rw [hp] <;> omega

/-- The test with one negative-point question used by the C8
counterexample. -/
def testNeg : Test :=
  { testMC with
      questions := [{ id := 1, question_type := .multipleChoice, question := "q"
                      points := -1
                      details := .mc { options := ["a"], correct_answer := 0
                                       explanation := none } }] }

/-- C8 counterexample.  Nothing validates question point values, and with one
unanswered question worth −1 point the submission ends with earned 0 > max
−1: the claimed `earned ≤ max` fails. -/
theorem negative_points_counterexample :
    (grade_mcq_only testNeg.questions []).earned = 0 ∧
    (grade_mcq_only testNeg.questions []).maxPossible = -1 ∧
    ¬ ((submit_attempt_by_token (create_invite testNeg 0 24) testNeg ⟨[], none⟩ 10).score ≤
       (submit_attempt_by_token (create_invite testNeg 0 24) testNeg ⟨[], none⟩ 10).max_score) := by
  refine ⟨rfl, rfl, ?_⟩
  have hs : (submit_attempt_by_token (create_invite testNeg 0 24) testNeg ⟨[], none⟩ 10).score =
      ((0 : Int) : Rat) := rfl
  have hm : (submit_attempt_by_token (create_invite testNeg 0 24) testNeg ⟨[], none⟩ 10).max_score =
      ((-1 : Int) : Rat) := rfl
  rw [hs, hm]
  norm_num

/-- C8 amended.  Provided every question's point value is nonnegative and the
plain point total fits in i32 (neither is enforced anywhere; the source
accumulates in i32, so an overflowing total would wrap), the submission
satisfies 0 ≤ earned ≤ max, the persisted percentage is 100·earned/max when
max > 0 and 0 otherwise (arithmetic exact over ℚ), the attempt passes iff the
percentage reaches the test's passing score, and exactly these values are
persisted on the row. -/
theorem submit_score_bounds (a : Attempt) (t : Test) (req : SubmitTestRequest) (now : Int)
    (hpts : ∀ q ∈ t.questions, 0 ≤ q.points)
    (hfit : (t.questions.map Question.points).sum < 2 ^ 31) :
    0 ≤ (submit_attempt_by_token a t req now).score ∧
    (submit_attempt_by_token a t req now).score ≤
      (submit_attempt_by_token a t req now).max_score ∧
    (submit_attempt_by_token a t req now).percentage =
      (if (submit_attempt_by_token a t req now).max_score > 0 then
        100 * (submit_attempt_by_token a t req now).score /
          (submit_attempt_by_token a t req now).max_score
       else 0) ∧
    ((submit_attempt_by_token a t req now).passed = true ↔
      (submit_attempt_by_token a t req now).percentage ≥ t.passing_score) ∧
    (submit_attempt_by_token a t req now).attempt.score =
      some (submit_attempt_by_token a t req now).score ∧
    (submit_attempt_by_token a t req now).attempt.percentage =
      some (submit_attempt_by_token a t req now).percentage ∧
    (submit_attempt_by_token a t req now).attempt.passed =
      some (submit_attempt_by_token a t req now).passed := by
  obtain ⟨h0, hle⟩ := gradeLoop_bounds (req.answers.map SaveAnswerRequest.toJson) t.questions 0 hpts
  have hW1 : (grade_mcq_only t.questions (req.answers.map SaveAnswerRequest.toJson)).maxPossible =
      wrap32 ((t.questions.map Question.points).sum) :=
    (gradeLoop_spec (req.answers.map SaveAnswerRequest.toJson) t.questions 0).1
  have hW4 : (grade_mcq_only t.questions (req.answers.map SaveAnswerRequest.toJson)).earned =
      wrap32 (((grade_mcq_only t.questions (req.answers.map SaveAnswerRequest.toJson)).graded.map
        entryPoints).sum) :=
    (gradeLoop_spec (req.answers.map SaveAnswerRequest.toJson) t.questions 0).2.2.2.1
  have hmEq : (grade_mcq_only t.questions (req.answers.map SaveAnswerRequest.toJson)).maxPossible =
      (t.questions.map Question.points).sum := by
    rw [hW1]
    exact wrap32_eq_self _ (le_trans (by norm_num) (le_trans h0 hle)) hfit
  have heEq : (grade_mcq_only t.questions (req.answers.map SaveAnswerRequest.toJson)).earned =
      ((grade_mcq_only t.questions (req.answers.map SaveAnswerRequest.toJson)).graded.map
        entryPoints).sum := by
    rw [hW4]
    exact wrap32_eq_self _ (le_trans (by norm_num) h0) (lt_of_le_of_lt hle hfit)
  have h0i : 0 ≤ (grade_mcq_only t.questions (req.answers.map SaveAnswerRequest.toJson)).earned := by
    rw [heEq]
    exact h0
  have hlei : (grade_mcq_only t.questions (req.answers.map SaveAnswerRequest.toJson)).earned ≤
      (grade_mcq_only t.questions (req.answers.map SaveAnswerRequest.toJson)).maxPossible := by
    rw [heEq, hmEq]
    exact hle
  have hsc : (submit_attempt_by_token a t req now).score =
      ((grade_mcq_only t.questions (req.answers.map SaveAnswerRequest.toJson)).earned : Rat) := rfl
  have hms : (submit_attempt_by_token a t req now).max_score =
      ((grade_mcq_only t.questions (req.answers.map SaveAnswerRequest.toJson)).maxPossible : Rat) := rfl
  have hpc : (submit_attempt_by_token a t req now).percentage =
      (if ((grade_mcq_only t.questions (req.answers.map SaveAnswerRequest.toJson)).maxPossible : Rat) > 0 then
        ((grade_mcq_only t.questions (req.answers.map SaveAnswerRequest.toJson)).earned : Rat) /
          ((grade_mcq_only t.questions (req.answers.map SaveAnswerRequest.toJson)).maxPossible : Rat) * 100
       else 0) := rfl
  have hpd : (submit_attempt_by_token a t req now).passed =
      decide ((submit_attempt_by_token a t req now).percentage ≥ t.passing_score) := rfl
  refine ⟨?_, ?_, ?_, ?_, rfl, rfl, rfl⟩
  · rw [hsc]
    exact_mod_cast h0i
  · rw [hsc, hms]
    exact_mod_cast hlei
  · rw [hpc, hms, hsc]
    split_ifs with h
    · ring
    · rfl
  · rw [hpd]
    simp [decide_eq_true_eq]

/-- Witness for submit_score_bounds at the fixture test and submission. -/
theorem submit_score_bounds_witness :
    (submit_attempt_by_token attemptInvited testMC reqMC 100).score ≤
      (submit_attempt_by_token attemptInvited testMC reqMC 100).max_score ∧
    ((submit_attempt_by_token attemptInvited testMC reqMC 100).passed = true ↔
      (submit_attempt_by_token attemptInvited testMC reqMC 100).percentage ≥
        testMC.passing_score) :=
  ⟨(submit_score_bounds attemptInvited testMC reqMC 100 (by decide) (by decide)).2.1,
   (submit_score_bounds attemptInvited testMC reqMC 100 (by decide) (by decide)).2.2.2.1⟩

/-- Witness for report_violation_spec: the second violation escapes the
in-progress fixture; a further call on the escaped fixture is a no-op. -/
theorem report_violation_spec_witness :
    (report_violation attemptProg "tab_switch" 50).attempt.status = "escaped" ∧
    (report_violation attemptProg "tab_switch" 50).tab_switches = 2 ∧
    (report_violation attemptEscaped "tab_switch" 50).attempt = attemptEscaped ∧
    (report_violation attemptEscaped "tab_switch" 50).terminated = true := by
  have h1 := (report_violation_spec attemptProg "tab_switch" 50).1 rfl
  have h2 := (report_violation_spec attemptEscaped "tab_switch" 50).2 (by decide)
  exact ⟨(h1.2.2.2 (by decide)).1, h1.1.trans (by decide), h2.1,
    h2.2.2.trans (by decide)⟩

end HRBackend
